import Mathlib

/-!
Shallow embedding of `src/packages/bundler/src/parseScannerResult.ts`.

Modelling conventions:

* Ethereum addresses and storage slots are canonical lowercase hex strings in
  the source; canonical 32-byte hex strings are in bijection with their
  numeric values, so we represent addresses and slots as `Nat` and string
  equality on canonical forms becomes `Nat` equality.
* JavaScript objects used as string-keyed maps become association lists
  (`List (key × value)`); `Object.keys` order is insertion order, matching
  the association-list order.  JS `Set` becomes a duplicate-free `List`
  grown with `setAdd`.
* `requireCond cond msg code` (from `./utils`) throws when `cond` is false;
  checks are therefore embedded as `Bool` "violation raised" flags or as
  `Except String Unit` where the message matters.
* `keccak256` (from `ethers`) is an external hash; it is passed as an
  explicit function parameter `List Nat → Nat` (bytes to slot value).
-/

set_option linter.unusedVariables false

namespace Bundler

/-- Stake record of one entity (`StakeInfo` of `modules/Types`): address,
stake amount and unstake delay, numbers in the source (`BigNumberish`). -/
structure StakeInfo where
  addr : Nat
  stake : Nat
  unstakeDelaySec : Nat
  deriving DecidableEq, Repr

/-- The decoded return value of a resolved call, as far as the policy engine
inspects it: `parseScannerResult` only ever reads `call.return?.context`. -/
structure ReturnValue where
  context : Option String
  deriving DecidableEq, Repr

/-- One resolved call produced by `parseCallStack` (`CallEntry` in the
source).  `from` and `to` are reserved words here, so the fields are named
`fromAddr`/`toAddr`; `return`/`revert` become `returnValue`/`revertValue`
(the spec's names for the same fields). -/
structure CallEntry where
  toAddr : Nat
  fromAddr : Nat
  type : String
  method : String
  returnValue : Option ReturnValue := none
  revertValue : Option String := none
  value : Option Nat := none
  deriving DecidableEq, Repr

/-- Read/write slot sets recorded for one touched address inside a trace
level's `access` map (slots are the keys of the source's
`reads`/`writes` objects). -/
structure AccessInfo where
  reads : List Nat
  writes : List Nat
  deriving DecidableEq, Repr

/-- One per-entity trace level (an element of
`tracerResults.callsFromEntryPoint`), restricted to the fields
`parseScannerResult` consumes. -/
structure TraceLevel where
  topLevelMethodSig : String
  opcodes : List (String × Nat)
  access : List (Nat × AccessInfo)
  contractSize : List (Nat × Nat)
  oog : Bool
  deriving DecidableEq, Repr

/-! ## Entry-point call-shape checks (lines 186-198) -/

/-- Line 186-188: the first resolved call into the entry point from outside
it whose method is neither the bare `0x` transfer nor `depositTo`. -/
def callInfoEntryPoint (callStack : List CallEntry) (entryPointAddress : Nat) :
    Option CallEntry :=
  callStack.find? fun call =>
    call.toAddr == entryPointAddress && call.fromAddr != entryPointAddress &&
      (call.method != "0x" && call.method != "depositTo")

/-- Lines 189-192: `requireCond (callInfoEntryPoint == null) ...` raises the
"illegal call into EntryPoint during validation" violation exactly when such
a call was found. -/
def illegalEntryPointCallViolation (callStack : List CallEntry)
    (entryPointAddress : Nat) : Bool :=
  (callInfoEntryPoint callStack entryPointAddress).isSome

/-- JS strict inequality `!==` between two freshly constructed `BigNumber`
objects (`BigNumber.from(x) !== BigNumber.from(0)`, line 196) compares
object references, so it is `true` whatever the numeric operands are. -/
def bigNumberStrictNeq (a b : Nat) : Bool :=
  true

/-- Lines 194-198 as written in the source:
`requireCond (callStack.find (fun call => call.toAddr !== ep && BigNumber.from(call.value ?? 0) !== BigNumber.from(0)) != null, 'May not may CALL with value')`.
`requireCond` raises when its condition is false, i.e. when the `find`
returns no element; with the always-true reference comparison the predicate
collapses to `call.toAddr != entryPointAddress`. -/
def valueCallViolation (callStack : List CallEntry) (entryPointAddress : Nat) :
    Bool :=
  (callStack.find? fun call =>
      call.toAddr != entryPointAddress && bigNumberStrictNeq (call.value.getD 0) 0).isNone

/-! ## Stake gate (lines 327-339) -/

/-- Line 335: `BigNumber.from(1).lt(stake) && BigNumber.from(1).lt(unstakeDelaySec)` —
both quantities must be strictly greater than 1. -/
def isStaked (entStakes : StakeInfo) : Bool :=
  1 < entStakes.stake && 1 < entStakes.unstakeDelaySec

/-- Lines 328-339, `requireCondAndStake`: when `cond` holds the entity must
exist (else an internal error, a defect) and be staked (else the policy
violation `failureMessage`). -/
def requireCondAndStake (cond : Bool) (entStakes : Option StakeInfo)
    (failureMessage : String) : Except String Unit :=
  if !cond then Except.ok ()
  else
    match entStakes with
    | none => Except.error "internal: entity not in userOp, but has storage accesses"
    | some s => if isStaked s then Except.ok () else Except.error failureMessage

/-! ## CREATE2 arity check (lines 229-233) -/

/-- Lines 229-233: the factory may record at most one CREATE2
(`(opcodes.CREATE2 ?? 0) <= 1`); for any other entity the histogram may not
contain the CREATE2 key at all (`opcodes.CREATE2 == null`). -/
def create2Check (entityTitle : String) (opcodes : List (String × Nat)) :
    Except String Unit :=
  if entityTitle == "factory" then
    if (opcodes.lookup "CREATE2").getD 0 ≤ 1 then Except.ok ()
    else Except.error (entityTitle ++ " with too many CREATE2")
  else
    if (opcodes.lookup "CREATE2").isNone then Except.ok ()
    else Except.error (entityTitle ++ " uses banned opcode: CREATE2")

/-! ## Entity slot derivation, `parseEntitySlots` (lines 125-155) -/

/-- Modelled from the spec: `toBytes32` lives in `modules/moduleUtils`,
which is not part of the sources here; per the spec it left-pads the
address to the hash function's 32-byte input slot width.  We render the
padded value as its big-endian byte sequence. -/
def toBytes32 (addr : Nat) : List Nat :=
  (List.range 32).map fun i => addr / 256 ^ (31 - i) % 256

/-- `Set.add` on the duplicate-free list representation of a JS `Set`. -/
def setAdd (s : List Nat) (x : Nat) : List Nat :=
  if x ∈ s then s else s ++ [x]

/-- Lines 125-155, `parseEntitySlots`: for every keccak preimage `k` and
every present entity, if `k` starts with the entity's address left-padded
to 32 bytes, add `keccak256 k` to that entity's slot set.  (The second-order
rule for nested mappings is commented out in the source and hence absent
here.)  The slot-set map is represented as a function from address to the
accumulated slot list (absent key = empty set).

The per-entity step of the double loop: for one preimage `k` and one
(possibly absent) entity record, add `keccak256 k` to the entity's slot set
when `k` starts with the entity's padded address. -/
def addEntitySlot (keccak256 : List Nat → Nat) (k : List Nat)
    (slots : Nat → List Nat) (info : Option StakeInfo) : Nat → List Nat :=
  match info with
  | none => slots
  | some i =>
      if (toBytes32 i.addr).isPrefixOf k then
        fun a =>
          if a = i.addr then setAdd (slots i.addr) (keccak256 k)
          else slots a
      else slots

def parseEntitySlots (keccak256 : List Nat → Nat)
    (stakeInfoEntities : List (Option StakeInfo))
    (keccak : List (List Nat)) : Nat → List Nat :=
  keccak.foldl
    (fun entitySlots k =>
      stakeInfoEntities.foldl (addEntitySlot keccak256 k) entitySlots)
    (fun _ => [])

/-! ## Storage-access authorization (lines 254-305) -/

/-- Lines 254-273, `associatedWith`: a slot is associated with an address
when it equals the address left-padded to 32 bytes (string equality on
canonical hex, i.e. numeric equality), or when its numeric value lies in
`[k, k+128)` for some slot `k` of the address's derived slot set
(`slotN.gte(kn) && slotN.lt(kn.add(128))`). -/
def associatedWith (slot addr : Nat) (entitySlots : Nat → List Nat) : Bool :=
  if slot == addr then true
  else (entitySlots addr).any fun k1 => k1 ≤ slot && slot < k1 + 128

/-- Outcome of the per-slot scan body (lines 285-305): the slot access is
allowed outright, records a stake requirement (`requireStakeSlot = slot`),
or is an immediate "forbidden read/write" violation. -/
inductive SlotCheck where
  | ok
  | requireStake
  | forbidden
  deriving DecidableEq, Repr

/-- Lines 285-305, the body of the slot scan for one slot read or written at
a touched address `addr` that is neither the sender nor the entry point:
sender-associated slots pass, unless the operation carries `initCode`
(hex-string length > 2, i.e. longer than the bare prefix), in which case
the access is stake-requiring; entity-associated slots and the entity's own
contract storage are stake-requiring; anything else is forbidden.
`initCodeLength` is the length of the `userOp.initCode` hex string (the
empty code is the two-character string `0x`). -/
def checkSlot (initCodeLength sender entityAddr addr : Nat)
    (entitySlots : Nat → List Nat) (slot : Nat) : SlotCheck :=
  if associatedWith slot sender entitySlots then
    if initCodeLength > 2 then SlotCheck.requireStake else SlotCheck.ok
  else if associatedWith slot entityAddr entitySlots then SlotCheck.requireStake
  else if addr == entityAddr then SlotCheck.requireStake
  else SlotCheck.forbidden

/-! ## Paymaster context rule (lines 320-325) -/

/-- Line 321-322: the decoded context of the first `validatePaymasterUserOp`
call whose target is the paymaster (`validatePaymasterUserOp?.return?.context`). -/
def paymasterContext (callStack : List CallEntry) (entityAddr : Nat) :
    Option String :=
  ((callStack.find? fun call =>
      call.method == "validatePaymasterUserOp" && call.toAddr == entityAddr).bind
    fun call => call.returnValue).bind
    fun r => r.context

/-- Lines 320-325: `requireCondAndStake (context != null && context !== '0x', ...)`
— a present, non-`0x` context obliges the paymaster to be staked. -/
def paymasterContextCheck (callStack : List CallEntry) (entityAddr : Nat)
    (entStakes : Option StakeInfo) : Except String Unit :=
  requireCondAndStake
    (match paymasterContext callStack entityAddr with
      | some c => c != "0x"
      | none => false)
    entStakes "unstaked paymaster must not return context"

/-! ## Result aggregation (lines 346-354) -/

/-- Line 347: `tracerResults.callsFromEntryPoint.flatMap(level => Object.keys(level.contractSize))`
— the concatenation, over the levels in order, of each level's
contract-size keys. -/
def addresses (callsFromEntryPoint : List TraceLevel) : List Nat :=
  callsFromEntryPoint.flatMap fun level => level.contractSize.map Prod.fst

/-- One assignment `storageMap[addr] = storageMap[addr] ?? level.access[addr].reads`
(line 351): bind the address to this level's read set unless already bound. -/
def storageMapInsert (m : List (Nat × List Nat)) (entry : Nat × AccessInfo) :
    List (Nat × List Nat) :=
  if (m.lookup entry.1).isSome then m else m ++ [(entry.1, entry.2.reads)]

/-- Process one trace level of the storage-map loop (lines 350-352). -/
def storageMapAddLevel (storageMap : List (Nat × List Nat)) (level : TraceLevel) :
    List (Nat × List Nat) :=
  level.access.foldl storageMapInsert storageMap

/-- Lines 348-353: walk the levels in order and, for every address of the
level's access map, bind it to that level's read set unless already bound. -/
def buildStorageMap (callsFromEntryPoint : List TraceLevel) :
    List (Nat × List Nat) :=
  callsFromEntryPoint.foldl storageMapAddLevel []

/-- The spec's description of the storage map ("taking, per address, the
first level's recorded read-set encountered in level order"), stated as a
direct recursion to compare against `buildStorageMap`. -/
def firstLevelReads (callsFromEntryPoint : List TraceLevel) (addr : Nat) :
    Option (List Nat) :=
  match callsFromEntryPoint with
  | [] => none
  | level :: rest =>
      match level.access.lookup addr with
      | some info => some info.reads
      | none => firstLevelReads rest addr

/-! ## Concrete sample inputs used to instantiate theorems -/

/-- A resolved call carrying a native-value transfer of 7 wei to a
non-entry-point address. -/
def demoValueCall : CallEntry :=
  { toAddr := 5, fromAddr := 1, type := "CALL", method := "transfer",
    value := some 7 }

/-- A zero-value deposit call targeting the entry point (address 9). -/
def demoDepositCall : CallEntry :=
  { toAddr := 9, fromAddr := 1, type := "CALL", method := "depositTo",
    value := some 0 }

/-- An empty entity-slot map (no keccak-derived slots at all). -/
def demoEmptySlots : Nat → List Nat :=
  fun _ => []

/-- An entity-slot map deriving the single slot 1000 for address 9. -/
def demoEntitySlots : Nat → List Nat :=
  fun a => if a = 9 then [1000] else []

/-- A sample trace level whose contract-size map mentions address 170. -/
def demoLevelA : TraceLevel :=
  { topLevelMethodSig := "0xa", opcodes := [], access := [],
    contractSize := [(170, 10)], oog := false }

/-- A second sample trace level also mentioning address 170. -/
def demoLevelB : TraceLevel :=
  { topLevelMethodSig := "0xb", opcodes := [], access := [],
    contractSize := [(170, 12)], oog := false }

/-- A sample stand-in for the external keccak256 function. -/
def demoKeccak (k : List Nat) : Nat :=
  k.foldl (fun a b => 256 * a + b) 0 + 1

/-- A sample entity stake record at address 20. -/
def demoStakeInfo : StakeInfo :=
  { addr := 20, stake := 100, unstakeDelaySec := 100 }

/-- A sample hashing preimage that starts with address 20 padded to
32 bytes. -/
def demoPreimage : List Nat :=
  toBytes32 20 ++ [7]

/-! ## Theorems -/

/-- C1: the claim says the check raises the "May not may CALL with value"
violation exactly when some resolved call carries a non-zero value.  The
code does neither: `demoValueCall` transfers 7 wei to a non-entry-point
address yet raises nothing, while a single zero-value `depositTo` call into
the entry point (address 9) does raise the violation, because the
`BigNumber` reference comparison is always true and the null-check on the
`find` result is inverted. -/
theorem valueCallViolation_inverted :
    demoValueCall.value = some 7 ∧ demoValueCall.toAddr ≠ 9 ∧
      valueCallViolation [demoValueCall] 9 = false ∧
      demoDepositCall.value = some 0 ∧
      valueCallViolation [demoDepositCall] 9 = true := by
  decide

/-- C4: with a recorded stake-requiring condition, the entity escapes the
violation exactly when both its stake and its unstake delay are strictly
greater than 1; otherwise (including equality with 1) the violation with the
given failure message is raised. -/
theorem requireCondAndStake_threshold (s : StakeInfo) (msg : String) :
    (requireCondAndStake true (some s) msg = Except.ok () ↔
      1 < s.stake ∧ 1 < s.unstakeDelaySec) ∧
    (¬ (1 < s.stake ∧ 1 < s.unstakeDelaySec) →
      requireCondAndStake true (some s) msg = Except.error msg) := by
  unfold requireCondAndStake isStaked
  by_cases h1 : 1 < s.stake <;> by_cases h2 : 1 < s.unstakeDelaySec <;>
    simp [h1, h2]

theorem requireCondAndStake_threshold_witness :
    requireCondAndStake true (some ⟨0, 1, 1⟩) "m" = Except.error "m" :=
  (requireCondAndStake_threshold ⟨0, 1, 1⟩ "m").2 (by decide)

/-- C6: the "illegal call into EntryPoint during validation" violation is
raised exactly when some resolved call targets the entry point from outside
it and is not a deposit operation (neither `depositTo` nor the bare `0x`
value transfer); in particular a call list without such a call raises
nothing. -/
theorem illegalEntryPointCall_iff (callStack : List CallEntry)
    (entryPointAddress : Nat) :
    illegalEntryPointCallViolation callStack entryPointAddress = true ↔
      ∃ call ∈ callStack, call.toAddr = entryPointAddress ∧
        call.fromAddr ≠ entryPointAddress ∧
        call.method ≠ "0x" ∧ call.method ≠ "depositTo" := by
  simp only [illegalEntryPointCallViolation, callInfoEntryPoint,
    List.find?_isSome, Bool.and_eq_true, beq_iff_eq, bne_iff_ne, ne_eq]
  tauto

/-- C7: the factory level passes the CREATE2-arity check exactly when its
CREATE2 count is at most one, and two or more raise the violation naming the
factory; any other entity passes exactly when the histogram has no CREATE2
entry at all, and a present entry raises the banned-opcode violation naming
that entity. -/
theorem create2Check_arity (opcodes : List (String × Nat)) :
    (create2Check "factory" opcodes = Except.ok () ↔
      (opcodes.lookup "CREATE2").getD 0 ≤ 1) ∧
    (2 ≤ (opcodes.lookup "CREATE2").getD 0 →
      create2Check "factory" opcodes =
        Except.error "factory with too many CREATE2") ∧
    (∀ entityTitle, entityTitle ≠ "factory" →
      ((create2Check entityTitle opcodes = Except.ok () ↔
          opcodes.lookup "CREATE2" = none) ∧
        ((opcodes.lookup "CREATE2").isSome →
          create2Check entityTitle opcodes =
            Except.error (entityTitle ++ " uses banned opcode: CREATE2")))) := by
  refine ⟨?_, ?_, ?_⟩
  · by_cases h : (opcodes.lookup "CREATE2").getD 0 ≤ 1 <;>
      simp [create2Check, h]
  · intro h2
    have h : ¬ (opcodes.lookup "CREATE2").getD 0 ≤ 1 := by omega
    simp [create2Check, h]
  · intro entityTitle ht
    have hne : (entityTitle == "factory") = false := by
      simpa using ht
    cases hl : opcodes.lookup "CREATE2" <;>
      simp [create2Check, hne, hl]

theorem create2Check_arity_witness :
    create2Check "factory" [("CREATE2", 2)] =
      Except.error "factory with too many CREATE2" :=
  (create2Check_arity [("CREATE2", 2)]).2.1 (by decide)

/-- C10: a slot is associated with an address exactly when it equals the
padded address or lies in the half-open window `[k, k+128)` above some
derived slot `k` of that address; consequently an access inside such a
window around an entity-derived slot is classified at most stake-requiring,
never as the forbidden-access violation. -/
theorem associatedWith_window :
    (∀ slot addr entitySlots, associatedWith slot addr entitySlots = true ↔
      (slot = addr ∨ ∃ k ∈ entitySlots addr, k ≤ slot ∧ slot < k + 128)) ∧
    (∀ initCodeLength sender entityAddr addr entitySlots slot k,
      k ∈ entitySlots entityAddr → k ≤ slot → slot < k + 128 →
      checkSlot initCodeLength sender entityAddr addr entitySlots slot ≠
        SlotCheck.forbidden) := by
  have hiff : ∀ slot addr entitySlots,
      associatedWith slot addr entitySlots = true ↔
        (slot = addr ∨ ∃ k ∈ entitySlots addr, k ≤ slot ∧ slot < k + 128) := by
    intro slot addr entitySlots
    by_cases h : slot = addr <;>
      simp [associatedWith, h, List.any_eq_true, Bool.and_eq_true,
        decide_eq_true_eq]
  refine ⟨hiff, ?_⟩
  intro icl sender entityAddr addr entitySlots slot k hk h1 h2
  have hassoc : associatedWith slot entityAddr entitySlots = true :=
    (hiff slot entityAddr entitySlots).2 (Or.inr ⟨k, hk, h1, h2⟩)
  unfold checkSlot
  by_cases hs : associatedWith slot sender entitySlots
  · simp only [hs, if_true]
    split <;> simp
  · simp [hs, hassoc]

theorem associatedWith_window_witness :
    checkSlot 0 5 9 7 demoEntitySlots 1003 ≠ SlotCheck.forbidden :=
  associatedWith_window.2 0 5 9 7 demoEntitySlots 1003 1000
    (by decide) (by decide) (by decide)

/-- C2 counterexample: the claim exempts the account entity from the
initCode stake rule for sender-associated slots, but the code treats every
entity alike.  Here the account entity itself (entityAddr = sender = 5)
reads slot 5 (the padded sender address) at foreign address 7 while the
operation carries initCode (hex length 4 > 2): the access is recorded as
stake-requiring, and with an unstaked account record the stake gate raises
the violation — not the claimed unconditional pass. -/
theorem accountSenderSlot_counterexample :
    checkSlot 4 5 5 7 demoEmptySlots 5 = SlotCheck.requireStake ∧
      requireCondAndStake true (some ⟨5, 0, 0⟩) "unstaked account accessed slot 5" =
        Except.error "unstaked account accessed slot 5" :=
  ⟨by decide, rfl⟩

/-- C2 (amended): for every entity — the account included — a slot
associated with the sender at a non-sender, non-entry-point address passes
with no stake requirement exactly when the operation carries no initCode
(hex length at most 2), and is recorded stake-requiring whenever initCode is
present. -/
theorem senderSlot_initCode_rule (initCodeLength sender entityAddr addr : Nat)
    (entitySlots : Nat → List Nat) (slot : Nat)
    (h : associatedWith slot sender entitySlots = true) :
    checkSlot initCodeLength sender entityAddr addr entitySlots slot =
      if 2 < initCodeLength then SlotCheck.requireStake else SlotCheck.ok := by
  unfold checkSlot
  simp [h]

theorem senderSlot_initCode_rule_witness :
    associatedWith 5 5 demoEmptySlots = true ∧
      checkSlot 4 5 9 7 demoEmptySlots 5 = SlotCheck.requireStake :=
  ⟨by decide,
    (senderSlot_initCode_rule 4 5 9 7 demoEmptySlots 5 (by decide)).trans
      (by decide)⟩

/-- C8: with a present paymaster stake record, the "unstaked paymaster must
not return context" violation is raised exactly when the decoded
`validatePaymasterUserOp` return context is present and not the empty `0x`
while the paymaster is unstaked; a staked paymaster, or an absent or empty
context, passes the check. -/
theorem paymasterContextCheck_iff (callStack : List CallEntry)
    (entityAddr : Nat) (s : StakeInfo) :
    (paymasterContextCheck callStack entityAddr (some s) =
        Except.error "unstaked paymaster must not return context" ↔
      (isStaked s = false ∧
        ∃ c, paymasterContext callStack entityAddr = some c ∧ c ≠ "0x")) ∧
    (paymasterContextCheck callStack entityAddr (some s) = Except.ok () ↔
      (isStaked s = true ∨ paymasterContext callStack entityAddr = none ∨
        paymasterContext callStack entityAddr = some "0x")) := by
  unfold paymasterContextCheck requireCondAndStake
  cases hc : paymasterContext callStack entityAddr with
  | none => simp
  | some c =>
      by_cases hcx : c = "0x" <;> by_cases hs : isStaked s <;>
        simp [hcx, hs]

/-- Lookup after folding one level's access map into the storage map:
existing bindings win, then this level's access entries in order. -/
theorem foldl_storageMapInsert_lookup (access : List (Nat × AccessInfo))
    (m : List (Nat × List Nat)) (x : Nat) :
    (access.foldl storageMapInsert m).lookup x =
      (m.lookup x).or ((access.lookup x).map AccessInfo.reads) := by
  induction access generalizing m with
  | nil => simp
  | cons e rest ih =>
      obtain ⟨k, info⟩ := e
      rw [List.foldl_cons, ih]
      unfold storageMapInsert
      by_cases hp : (m.lookup k).isSome
      · rw [if_pos hp]
        by_cases hx : x = k
        · subst hx
          obtain ⟨v, hv⟩ := Option.isSome_iff_exists.mp hp
          simp [hv, List.lookup_cons]
        · have hbx : (x == k) = false := by simpa using hx
          simp [List.lookup_cons, hbx]
      · rw [if_neg hp, List.lookup_append]
        by_cases hx : x = k
        · subst hx
          have hnone : m.lookup x = none := Option.not_isSome_iff_eq_none.mp hp
          simp [hnone, List.lookup_cons]
        · have hbx : (x == k) = false := by simpa using hx
          simp [List.lookup_cons, hbx]

/-- Folding the remaining levels on top of an accumulated storage map only
fills addresses the accumulated map does not bind yet. -/
theorem foldl_storageMapAddLevel_lookup (levels : List TraceLevel)
    (m : List (Nat × List Nat)) (x : Nat) :
    (levels.foldl storageMapAddLevel m).lookup x =
      (m.lookup x).or (firstLevelReads levels x) := by
  induction levels generalizing m with
  | nil => simp [firstLevelReads]
  | cons level rest ih =>
      rw [List.foldl_cons, ih]
      unfold storageMapAddLevel
      rw [foldl_storageMapInsert_lookup, Option.or_assoc]
      have hfirst : firstLevelReads (level :: rest) x =
          ((level.access.lookup x).map AccessInfo.reads).or
            (firstLevelReads rest x) := by
        cases h : level.access.lookup x <;> simp [firstLevelReads, h]
      rw [hfirst]

/-- C9: the returned storage map binds every address to the read set of the
first trace level (in level order) whose access map contains that address —
`none` exactly when no level touches it — so a later level's differing read
set never overwrites the recorded one. -/
theorem storageMap_first_level_wins (callsFromEntryPoint : List TraceLevel)
    (addr : Nat) :
    (buildStorageMap callsFromEntryPoint).lookup addr =
      firstLevelReads callsFromEntryPoint addr := by
  unfold buildStorageMap
  rw [foldl_storageMapAddLevel_lookup]
  simp [List.lookup]

/-- C3 counterexample: two trace levels each record a contract-size entry
for address 170, so the returned address list is `[170, 170]` — the address
appears twice, refuting the no-duplicates claim. -/
theorem addresses_duplicate_counterexample :
    addresses [demoLevelA, demoLevelB] = [170, 170] ∧
      ¬ (addresses [demoLevelA, demoLevelB]).Nodup := by
  decide

/-- C3 (amended): the address list is the concatenation, in level order, of
every level's contract-size keys: an address appears exactly once per trace
level that records a contract-size entry for it (keys are unique within a
level), and it appears at all exactly when some level records it. -/
theorem addresses_count (callsFromEntryPoint : List TraceLevel) (a : Nat)
    (h : ∀ level ∈ callsFromEntryPoint, (level.contractSize.map Prod.fst).Nodup) :
    (addresses callsFromEntryPoint).count a =
      callsFromEntryPoint.countP
        (fun level => decide (a ∈ level.contractSize.map Prod.fst)) ∧
    (a ∈ addresses callsFromEntryPoint ↔
      ∃ level ∈ callsFromEntryPoint, a ∈ level.contractSize.map Prod.fst) := by
  constructor
  · induction callsFromEntryPoint with
    | nil => simp [addresses]
    | cons level rest ih =>
        have hlevel := h level (List.mem_cons_self _ _)
        have hrest : ∀ l ∈ rest, (l.contractSize.map Prod.fst).Nodup :=
          fun l hl => h l (List.mem_cons_of_mem _ hl)
        simp only [addresses, List.flatMap_cons, List.count_append,
          List.countP_cons]
        have ihr := ih hrest
        simp only [addresses] at ihr
        rw [ihr]
        by_cases hm : a ∈ level.contractSize.map Prod.fst
        · rw [List.count_eq_one_of_mem hlevel hm]
          simp [hm]
          omega
        · rw [List.count_eq_zero_of_not_mem hm]
          simp [hm]
  · simp [addresses, List.mem_flatMap]

theorem addresses_count_witness :
    (addresses [demoLevelA, demoLevelB]).count 170 = 2 :=
  ((addresses_count [demoLevelA, demoLevelB] 170 (by decide)).1).trans
    (by decide)

theorem mem_setAdd (s : List Nat) (x y : Nat) :
    y ∈ setAdd s x ↔ y ∈ s ∨ y = x := by
  unfold setAdd
  by_cases h : x ∈ s
  · rw [if_pos h]
    exact ⟨Or.inl, fun hy => hy.elim id fun he => he ▸ h⟩
  · rw [if_neg h]
    simp

/-- Membership after folding all entities for one fixed preimage `k`. -/
theorem mem_foldl_addEntitySlot (keccak256 : List Nat → Nat) (k : List Nat)
    (ents : List (Option StakeInfo)) (slots : Nat → List Nat) (a x : Nat) :
    x ∈ (ents.foldl (addEntitySlot keccak256 k) slots) a ↔
      x ∈ slots a ∨
        ((∃ i : StakeInfo, some i ∈ ents ∧ i.addr = a) ∧
          (toBytes32 a).isPrefixOf k ∧ x = keccak256 k) := by
  induction ents generalizing slots with
  | nil => simp
  | cons info rest ih =>
      rw [List.foldl_cons, ih]
      cases info with
      | none =>
          simp only [addEntitySlot, List.mem_cons]
          constructor
          · rintro (hx | ⟨⟨i, hi, ha⟩, hrest⟩)
            · exact Or.inl hx
            · exact Or.inr ⟨⟨i, Or.inr hi, ha⟩, hrest⟩
          · rintro (hx | ⟨⟨i, hi | hi, ha⟩, hrest⟩)
            · exact Or.inl hx
            · exact absurd hi (by simp)
            · exact Or.inr ⟨⟨i, hi, ha⟩, hrest⟩
      | some i =>
          simp only [addEntitySlot]
          by_cases hp : (toBytes32 i.addr).isPrefixOf k
          · rw [if_pos hp]
            by_cases ha : a = i.addr
            · subst ha
              have hEx : ∃ j : StakeInfo, some j ∈ some i :: rest ∧ j.addr = i.addr :=
                ⟨i, List.mem_cons_self _ _, rfl⟩
              simp [mem_setAdd, hp, hEx]
              tauto
            · have ha2 : ¬ (i.addr = a) := fun hh => ha hh.symm
              simp only [if_neg ha, List.mem_cons, Option.some.injEq]
              constructor
              · rintro (hx | ⟨⟨j, hj, hja⟩, hrest⟩)
                · exact Or.inl hx
                · exact Or.inr ⟨⟨j, Or.inr hj, hja⟩, hrest⟩
              · rintro (hx | ⟨⟨j, hj | hj, hja⟩, hrest⟩)
                · exact Or.inl hx
                · exact absurd hja (hj ▸ ha2)
                · exact Or.inr ⟨⟨j, hj, hja⟩, hrest⟩
          · rw [if_neg hp]
            by_cases ha : a = i.addr
            · subst ha
              have hP : ¬ ((toBytes32 i.addr).isPrefixOf k = true) := hp
              simp only [List.mem_cons, Option.some.injEq]
              constructor
              · rintro (hx | ⟨_, hpk, _⟩)
                · exact Or.inl hx
                · exact absurd hpk hP
              · rintro (hx | ⟨_, hpk, _⟩)
                · exact Or.inl hx
                · exact absurd hpk hP
            · have ha2 : ¬ (i.addr = a) := fun hh => ha hh.symm
              simp only [List.mem_cons, Option.some.injEq]
              constructor
              · rintro (hx | ⟨⟨j, hj, hja⟩, hrest⟩)
                · exact Or.inl hx
                · exact Or.inr ⟨⟨j, Or.inr hj, hja⟩, hrest⟩
              · rintro (hx | ⟨⟨j, hj | hj, hja⟩, hrest⟩)
                · exact Or.inl hx
                · exact absurd hja (hj ▸ ha2)
                · exact Or.inr ⟨⟨j, hj, hja⟩, hrest⟩

/-- Membership after folding all preimages (the whole double loop of
`parseEntitySlots`, starting from an arbitrary accumulated map). -/
theorem mem_parseEntitySlots_fold (keccak256 : List Nat → Nat)
    (ents : List (Option StakeInfo)) (ks : List (List Nat))
    (slots : Nat → List Nat) (a x : Nat) :
    x ∈ (ks.foldl
        (fun entitySlots k => ents.foldl (addEntitySlot keccak256 k) entitySlots)
        slots) a ↔
      x ∈ slots a ∨
        ∃ k ∈ ks, (∃ i : StakeInfo, some i ∈ ents ∧ i.addr = a) ∧
          (toBytes32 a).isPrefixOf k ∧ x = keccak256 k := by
  induction ks generalizing slots with
  | nil => simp
  | cons k rest ih =>
      rw [List.foldl_cons, ih, mem_foldl_addEntitySlot]
      simp only [List.mem_cons]
      constructor
      · rintro ((hx | hk) | ⟨k1, hk1, hrest⟩)
        · exact Or.inl hx
        · exact Or.inr ⟨k, Or.inl rfl, hk⟩
        · exact Or.inr ⟨k1, Or.inr hk1, hrest⟩
      · rintro (hx | ⟨k1, hk1 | hk1, hrest⟩)
        · exact Or.inl (Or.inl hx)
        · exact Or.inl (Or.inr (hk1 ▸ hrest))
        · exact Or.inr ⟨k1, hk1, hrest⟩

/-- C5: a slot belongs to the derived slot set of an entity that has a stake
record exactly when some observed hashing preimage begins with the entity's
address left-padded to 32 bytes and the slot is the keccak256 hash of that
preimage; no other rule (in particular not the disabled second-order
nested-mapping rule) ever contributes a slot. -/
theorem parseEntitySlots_mem_iff (keccak256 : List Nat → Nat)
    (stakeInfoEntities : List (Option StakeInfo)) (keccak : List (List Nat))
    (i : StakeInfo) (hi : some i ∈ stakeInfoEntities) (x : Nat) :
    x ∈ parseEntitySlots keccak256 stakeInfoEntities keccak i.addr ↔
      ∃ k ∈ keccak, (toBytes32 i.addr).isPrefixOf k ∧ x = keccak256 k := by
  unfold parseEntitySlots
  rw [mem_parseEntitySlots_fold]
  have hEx : ∃ j : StakeInfo, some j ∈ stakeInfoEntities ∧ j.addr = i.addr :=
    ⟨i, hi, rfl⟩
  simp [hEx]

theorem parseEntitySlots_mem_iff_witness :
    demoKeccak demoPreimage ∈
        parseEntitySlots demoKeccak [some demoStakeInfo] [demoPreimage]
          demoStakeInfo.addr ↔
      ∃ k ∈ [demoPreimage], (toBytes32 demoStakeInfo.addr).isPrefixOf k ∧
        demoKeccak demoPreimage = demoKeccak k :=
  parseEntitySlots_mem_iff demoKeccak [some demoStakeInfo] [demoPreimage]
    demoStakeInfo (by decide) (demoKeccak demoPreimage)

end Bundler
